import Mathlib

/-!
Verification of `bcmills/more` against its specification.

The development shallowly embeds the parts of the repository that the
claims are about:

* `os/moreexec/moreexec.go` — the process supervisor (`Command`, `Cmd.Start`,
  `Cmd.wait`, `Cmd.Wait`): its escalation watcher, error reconciliation,
  completion channel, pipe bookkeeping and environment assembly.
* `moreio/limited_writer.go` — the `LimitedWriter` decorator.

Effects of the surrounding operating system (signal delivery succeeding or
failing, the grace timer firing before or after the hand-off, the native
wait result, pipe allocation failing, `exec.LookPath` results, the bytes an
underlying writer reports) are supplied as explicit scenario/oracle data, so
every definition is executable and every control-flow branch of the Go
source has a counterpart branch here.
-/

namespace MoreSpec

/-! ## Error values

Abstract model of the `error` values the supervisor can produce.  Payloads
are natural-number tags standing for otherwise-opaque wrapped errors. -/

/-- The distinguishable error values of package `moreexec` (plus `nil` as
`Option.none` at use sites). -/
inductive GoErr where
  /-- A non-nil error returned by the native `cmd.Wait()` itself. -/
  | exitErr (code : Nat)
  /-- `moreexec: error sending signal to Cmd: ...` (a genuine, non-benign
  signal-delivery failure, line 236). -/
  | signalErr (e : Nat)
  /-- `ErrWaitDelay` (line 25). -/
  | waitDelayErr
  /-- The cancellation context's own error, `ctx.Err()` (line 234). -/
  | ctxErr (e : Nat)
  /-- `moreexec: already started` (line 117). -/
  | alreadyStarted
  /-- `moreexec: not started` (line 367). -/
  | notStarted
  /-- `moreexec: Wait was already called` (line 372). -/
  | waitAlreadyCalled
  /-- `moreexec: Interrupt requires a non-nil Context` (line 109). -/
  | interruptRequiresContext
  /-- `moreexec: signal ...: errWindows` (line 112). -/
  | windowsSignal
  /-- An error from `os.Pipe()` during `Start`. -/
  | pipeErr (e : Nat)
  /-- An error from the native `cmd.Start()` spawn. -/
  | spawnErr (e : Nat)
deriving DecidableEq, Repr

/-! ## The escalation watcher and the supervisor wait loop

Model of `Cmd.wait` (moreexec.go lines 207-297).  The goroutine spawned at
line 222 is deterministic once the outcome of each racy step is fixed, so a
`WaitScenario` records those outcomes and `escalate`/`waitFinalErr` replay
the goroutine and the supervisor against them. -/

/-- Outcome of the `c.Process.Signal(c.Interrupt)` call (line 231). -/
inductive SignalOutcome where
  /-- `signalErr == nil`: the interrupt signal was delivered. -/
  | delivered
  /-- Delivery failed because the process had already exited
  (`isProcessDone(signalErr)`): a benign race. -/
  | failedProcessDone
  /-- Delivery failed with a genuine error `e`. -/
  | failedOther (e : Nat)
deriving DecidableEq, Repr

/-- One resolved interleaving of the racy steps of `Cmd.wait`. -/
structure WaitScenario where
  /-- True when the goroutine's first `select` (line 223) saw `ctx.Done()`
  rather than handing `nil` to the supervisor. -/
  ctxDoneFirst : Bool
  /-- Outcome of the signal delivery attempt (consulted only when an
  interrupt signal is configured and `ctxDoneFirst`). -/
  signalOutcome : SignalOutcome
  /-- The tag of `ctx.Err()` once the context is done. -/
  ctxError : Nat
  /-- True when the `WaitDelay` timer (line 241) fired before the goroutine
  could hand its error to the supervisor (consulted only when
  `WaitDelay != 0` and `ctxDoneFirst`). -/
  timerFired : Bool
  /-- The result of the native `cmd.Wait()` (line 274); `none` is a clean
  exit with status 0. -/
  waitResult : Option GoErr
deriving DecidableEq, Repr

/-- What the escalation goroutine (lines 222-271) did and reported. -/
structure EscOutcome where
  /-- The value the supervisor receives from `errc` (line 281). -/
  escErr : Option GoErr
  /-- The signal whose delivery was attempted at line 231, if any. -/
  signaled : Option Nat
  /-- True when `cmd.Process.Kill()` ran (line 258). -/
  killed : Bool
  /-- True when the goroutine closed the local pipe ends (lines 265-267). -/
  pipesClosedEarly : Bool
deriving DecidableEq, Repr

/-- The signal number standing for `os.Kill`. -/
def killSignal : Nat := 9

/-- The escalation goroutine of `Cmd.wait` (moreexec.go lines 222-271),
replayed against a fixed scenario.  `interrupt` is `c.Interrupt` (a signal
number, `none` for nil) and `waitDelay` is `c.WaitDelay` (`0` meaning the
zero duration). -/
def escalate (interrupt : Option Nat) (waitDelay : Nat) (s : WaitScenario) :
    EscOutcome :=
  if !s.ctxDoneFirst then
    -- `errc <- nil` won the first select: the branch exits cleanly.
    ⟨none, none, false, false⟩
  else
    -- lines 229-238
    let err1 : Option GoErr :=
      match interrupt, s.signalOutcome with
      | none, _ => none
      | some _, .delivered => some (.ctxErr s.ctxError)
      | some _, .failedProcessDone => none
      | some _, .failedOther e => some (.signalErr e)
    if waitDelay != 0 then
      if !s.timerFired then
        -- line 243: the supervisor took the error before the timer fired.
        ⟨err1, interrupt, false, false⟩
      else
        -- lines 255-267: timer fired; keep err1 unless it is nil.
        ⟨some (err1.getD .waitDelayErr), interrupt, true, true⟩
    else
      ⟨err1, interrupt, false, false⟩

/-- Condition under which `Cmd.wait` arms the escalation goroutine at all
(moreexec.go line 212). -/
def armedWatcher (interrupt : Option Nat) (waitDelay : Nat) : Bool :=
  interrupt.isSome || waitDelay != 0

/-- The error `Cmd.wait` stores in `c.err` (moreexec.go lines 274-288): the
native wait result, overridden by the escalation branch's error only when
the native wait returned nil. -/
def waitFinalErr (interrupt : Option Nat) (waitDelay : Nat)
    (s : WaitScenario) : Option GoErr :=
  if armedWatcher interrupt waitDelay then
    match s.waitResult, (escalate interrupt waitDelay s).escErr with
    | none, some ie => some ie
    | r, _ => r
  else
    s.waitResult

/-! ### The two precedence presentations compared by claim C1 -/

/-- Candidate (2) of the precedence rule: a genuine signal-delivery error
exists when cancellation fired, an interrupt was configured, and delivery
failed for a reason other than the process being done. -/
def candGenuineSignalErr (interrupt : Option Nat) (s : WaitScenario) :
    Option GoErr :=
  if s.ctxDoneFirst then
    match interrupt, s.signalOutcome with
    | some _, .failedOther e => some (.signalErr e)
    | _, _ => none
  else none

/-- The grace-period-expired condition: the `WaitDelay` timer fired before
the goroutine handed its error over. -/
def candGraceExpired (waitDelay : Nat) (s : WaitScenario) : Option GoErr :=
  if s.ctxDoneFirst && (waitDelay != 0) && s.timerFired then
    some .waitDelayErr
  else none

/-- The cancellation context's own error, available whenever cancellation
fired. -/
def candCtxOwn (s : WaitScenario) : Option GoErr :=
  if s.ctxDoneFirst then some (.ctxErr s.ctxError) else none

/-- The cancellation context's own error as the code actually surfaces it:
only after the interrupt signal was delivered successfully (line 234). -/
def candDeliveredCtx (interrupt : Option Nat) (s : WaitScenario) :
    Option GoErr :=
  if s.ctxDoneFirst then
    match interrupt, s.signalOutcome with
    | some _, .delivered => some (.ctxErr s.ctxError)
    | _, _ => none
  else none

/-- The precedence exactly as the specification sentence states it
(spec §4.4): native wait error, else genuine signal-delivery error, else
the grace-period-expired condition, else the cancellation context's own
error, else nil.  This definition follows the spec's words, to be compared
with `waitFinalErr`, which follows the code. -/
def specC1Precedence (interrupt : Option Nat) (waitDelay : Nat)
    (s : WaitScenario) : Option GoErr :=
  (s.waitResult.orElse fun _ =>
    (candGenuineSignalErr interrupt s).orElse fun _ =>
      (candGraceExpired waitDelay s).orElse fun _ => candCtxOwn s)

/-- The precedence the code actually implements: native wait error, else
genuine signal-delivery error, else the context's own error when the
interrupt was delivered successfully, else the grace-period-expired
condition, else nil. -/
def codeC1Precedence (interrupt : Option Nat) (waitDelay : Nat)
    (s : WaitScenario) : Option GoErr :=
  (s.waitResult.orElse fun _ =>
    (candGenuineSignalErr interrupt s).orElse fun _ =>
      (candDeliveredCtx interrupt s).orElse fun _ =>
        candGraceExpired waitDelay s)

/-- C1 (counterexample): the claimed precedence puts the grace-period
condition above the context's own error, but when the interrupt signal was
delivered successfully the code keeps `ctx.Err()` even after the grace
period expires (line 255 only replaces a nil error).  Concrete scenario:
interrupt = SIGINT, WaitDelay nonzero, cancellation fired, signal
delivered, timer fired, native wait returned nil — the code returns the
context error while the spec's precedence returns `ErrWaitDelay`. -/
theorem c1_spec_precedence_counterexample :
    armedWatcher (some 2) 5 = true ∧
    waitFinalErr (some 2) 5 ⟨true, .delivered, 7, true, none⟩ =
      some (.ctxErr 7) ∧
    specC1Precedence (some 2) 5 ⟨true, .delivered, 7, true, none⟩ =
      some .waitDelayErr ∧
    waitFinalErr (some 2) 5 ⟨true, .delivered, 7, true, none⟩ ≠
      specC1Precedence (some 2) 5 ⟨true, .delivered, 7, true, none⟩ := by
  refine ⟨rfl, rfl, rfl, ?_⟩
  decide

/-- C1 (amended): the error `Wait` finally stores follows the precedence:
(1) a non-benign native wait error always wins; (2) otherwise a genuine
signal-delivery error; (3) otherwise, when the interrupt signal was
delivered successfully, the cancellation context's own error; (4) otherwise
the grace-period-expired condition `ErrWaitDelay`; (5) otherwise nil. -/
theorem c1_wait_error_precedence (interrupt : Option Nat) (waitDelay : Nat)
    (s : WaitScenario) :
    waitFinalErr interrupt waitDelay s =
      codeC1Precedence interrupt waitDelay s := by
  obtain ⟨cd, so, ce, tf, wr⟩ := s
  rcases interrupt with _ | sig <;> cases cd <;> cases tf <;> cases so <;>
    rcases wr with _ | w <;>
    by_cases hwd : waitDelay = 0 <;>
    simp [waitFinalErr, armedWatcher, escalate, codeC1Precedence,
      candGenuineSignalErr, candDeliveredCtx, candGraceExpired, hwd,
      Option.orElse]

/-- C2 (counterexample): with `WaitDelay == 0`, cancellation does not
force-kill the process.  Concrete scenario: interrupt = SIGINT, WaitDelay
zero, cancellation fired and the signal was delivered — the escalation
branch neither calls `Kill` nor sends the kill signal. -/
theorem c2_zero_waitdelay_counterexample :
    (escalate (some 2) 0 ⟨true, .delivered, 1, false, none⟩).killed
        = false ∧
    (escalate (some 2) 0 ⟨true, .delivered, 1, false, none⟩).signaled ≠
      some killSignal := by
  decide

/-- C2 (amended): with a zero grace-period duration (`WaitDelay == 0`)
cancellation never escalates to a force-kill and never force-closes the
local pipe ends; its only automatic effect is attempting delivery of the
configured interrupt signal (so an instant kill happens only when that
signal is itself `os.Kill`, the `CommandContext` default). -/
theorem c2_zero_waitdelay_no_kill (interrupt : Option Nat)
    (s : WaitScenario) :
    (escalate interrupt 0 s).killed = false ∧
    (escalate interrupt 0 s).pipesClosedEarly = false ∧
    (escalate interrupt 0 s).signaled =
      (if s.ctxDoneFirst then interrupt else none) := by
  obtain ⟨cd, so, ce, tf, wr⟩ := s
  cases cd <;> rcases interrupt with _ | sig <;> cases so <;>
    simp [escalate]

/-- C7: if the interrupt signal was delivered successfully and the native
wait then returned nil (the child exited with status 0), `wait` stores the
cancellation context's own error rather than nil — whether or not the grace
period also expired. -/
theorem c7_interrupted_success_returns_ctx_err (interrupt : Option Nat)
    (waitDelay : Nat) (s : WaitScenario)
    (hi : interrupt.isSome = true)
    (hc : s.ctxDoneFirst = true)
    (hd : s.signalOutcome = .delivered)
    (hw : s.waitResult = none) :
    waitFinalErr interrupt waitDelay s = some (.ctxErr s.ctxError) := by
  obtain ⟨cd, so, ce, tf, wr⟩ := s
  rcases interrupt with _ | sig
  · simp at hi
  · simp only at hc hd hw
    subst hc hd hw
    cases tf <;> by_cases hwd : waitDelay = 0 <;>
      simp [waitFinalErr, armedWatcher, escalate, hwd]

/-- Witness for C7 at a concrete scenario: SIGINT delivered, child exited
cleanly before the grace period elapsed. -/
theorem c7_interrupted_success_returns_ctx_err_witness :
    waitFinalErr (some 2) 100 ⟨true, .delivered, 5, false, none⟩ =
      some (.ctxErr 5) :=
  c7_interrupted_success_returns_ctx_err (some 2) 100
    ⟨true, .delivered, 5, false, none⟩ rfl rfl rfl rfl

/-! ## The completion channel and the public `Wait`

`c.statec` is a channel of buffer size one (moreexec.go line 119); the
supervisor sends the process state and then closes it (lines 295-296).  A
Go channel serializes its receivers, so the concurrent callers of `Wait`
are modelled as the sequence of receive operations they perform. -/

/-- The `chan *os.ProcessState` completion channel: its pending buffered
values (process states are modelled as exit descriptors, `Nat`) and whether
it has been closed. -/
structure StateChan where
  buf : List Nat
  closed : Bool
deriving DecidableEq, Repr

/-- Result of one receive on the completion channel. -/
inductive RecvResult where
  /-- A buffered value was taken (`ok == true`). -/
  | value (st : Nat) (rest : StateChan)
  /-- The channel is closed and drained (`ok == false`). -/
  | closedEmpty
  /-- The receive would block (channel open and empty). -/
  | wouldBlock
deriving DecidableEq, Repr

/-- Receive on the completion channel. -/
def chanRecv (ch : StateChan) : RecvResult :=
  match ch.buf with
  | st :: rest => .value st ⟨rest, ch.closed⟩
  | [] => if ch.closed then .closedEmpty else .wouldBlock

/-- The channel as `Cmd.wait` leaves it (moreexec.go lines 295-296): the
process state sent, then the channel closed. -/
def publishState (st : Nat) : StateChan := ⟨[st], true⟩

/-- The mutable `Cmd` fields the modelled operations read and write. -/
structure CmdState where
  path : String
  args : List String
  env : Option (List String)
  dir : String
  interrupt : Option Nat
  waitDelay : Nat
  /-- Whether `c.Context` is non-nil. -/
  hasContext : Bool
  /-- `c.statec`: `none` before a successful `Start`. -/
  statec : Option StateChan
  /-- `c.ProcessState`. -/
  processState : Option Nat
  /-- `c.err`, set by the `wait` goroutine before it publishes. -/
  errField : Option GoErr
  /-- `c.localPipes` (endpoint handles as numeric ids). -/
  localPipes : List Nat
  /-- `c.remotePipes`. -/
  remotePipes : List Nat
  /-- Fresh-id counter standing for the OS file-descriptor allocator. -/
  pipeCount : Nat
deriving DecidableEq, Repr

/-- Result of one call to the public `Cmd.Wait`. -/
inductive WaitCallResult where
  /-- The call blocked on the channel (only possible before publication). -/
  | blocked
  /-- The call returned the given error. -/
  | returned (err : Option GoErr)
deriving DecidableEq, Repr

/-- The public `Cmd.Wait` (moreexec.go lines 365-376). -/
def waitMethod (c : CmdState) : WaitCallResult × CmdState :=
  match c.statec with
  | none => (.returned (some .notStarted), c)
  | some ch =>
    match chanRecv ch with
    | .value st rest =>
        (.returned c.errField,
         { c with statec := some rest, processState := some st })
    | .closedEmpty => (.returned (some .waitAlreadyCalled), c)
    | .wouldBlock => (.blocked, c)

/-- The k-th in a series of `Wait` calls on the same command (the channel
serializes concurrent receivers, so any interleaving is some order of these
calls). -/
def waitCallSeq (c : CmdState) : Nat → WaitCallResult × CmdState
  | 0 => waitMethod c
  | k + 1 => waitMethod (waitCallSeq c k).2

/-- After the first `Wait` the channel is drained but closed, and every
further call returns the already-called error without touching state. -/
theorem waitMethod_drained (c : CmdState)
    (h : c.statec = some ⟨[], true⟩) :
    waitMethod c = (.returned (some .waitAlreadyCalled), c) := by
  simp [waitMethod, h, chanRecv]

/-- C3: once the supervisor has published, the first `Wait` caller receives
the real process state and the final error, and every later caller receives
the distinct already-called error (and in particular never blocks). -/
theorem c3_wait_exactly_one_collection (c : CmdState) (st : Nat) (k : Nat)
    (h : c.statec = some (publishState st)) :
    (waitCallSeq c 0).1 = .returned c.errField ∧
    (waitCallSeq c 0).2.processState = some st ∧
    (waitCallSeq c (k + 1)).1 = .returned (some .waitAlreadyCalled) := by
  have hfirst : waitCallSeq c 0 =
      (.returned c.errField,
       { c with statec := some ⟨[], true⟩, processState := some st }) := by
    simp [waitCallSeq, waitMethod, h, publishState, chanRecv]
  have hstable : ∀ n, (waitCallSeq c (n + 1)).1 =
      .returned (some .waitAlreadyCalled) ∧
      (waitCallSeq c (n + 1)).2.statec = some ⟨[], true⟩ := by
    intro n
    induction n with
    | zero =>
        rw [show waitCallSeq c 1 = waitMethod (waitCallSeq c 0).2 from rfl,
          hfirst]
        constructor <;> simp [waitMethod, chanRecv]
    | succ m ih =>
        rw [show waitCallSeq c (m + 2) =
          waitMethod (waitCallSeq c (m + 1)).2 from rfl,
          waitMethod_drained _ ih.2]
        exact ⟨rfl, ih.2⟩
  refine ⟨by rw [hfirst], by rw [hfirst], (hstable k).1⟩

/-- Witness for C3: a concrete published command; the second caller gets
the already-called error. -/
theorem c3_wait_exactly_one_collection_witness :
    (waitCallSeq
        ⟨"p", ["p"], none, "", none, 0, false, some (publishState 0),
          none, none, [], [], 0⟩ 1).1 =
      .returned (some .waitAlreadyCalled) :=
  (c3_wait_exactly_one_collection
    ⟨"p", ["p"], none, "", none, 0, false, some (publishState 0),
      none, none, [], [], 0⟩ 0 0 rfl).2.2

/-! ## `Cmd.Start`

Model of `Cmd.Start` (moreexec.go lines 106-205).  Each of the three stream
slots is either nil, an `*os.File` (both passed through, lines 161, 172,
187), or a generic stream that needs a managed pipe and a copy goroutine.
The outcomes of the `os.Pipe()` calls and of the native spawn are supplied
by a `PipeEnv` oracle. -/

/-- What kind of value a stream slot (`Stdin`/`Stdout`/`Stderr`) holds. -/
inductive StreamCfg where
  /-- nil. -/
  | absent
  /-- An `*os.File`: passed through without a managed pipe. -/
  | file
  /-- Any other reader/writer: routed through a managed pipe. -/
  | generic
deriving DecidableEq, Repr

/-- The three stream slots plus whether `c.Stderr == c.Stdout` holds as an
interface comparison (line 179 and line 186). -/
structure StreamsCfg where
  stdin : StreamCfg
  stdout : StreamCfg
  stderr : StreamCfg
  errAliasesOut : Bool
deriving DecidableEq, Repr

/-- Environment oracle for one `Start` attempt: whether the k-th
`os.Pipe()` call fails, whether the native spawn fails, and whether the
platform is Windows. -/
structure PipeEnv where
  pipeFail : Nat → Option Nat
  spawnFail : Option Nat
  windows : Bool

/-- A pipe-env in which every pipe allocation and the spawn succeed. -/
def benignPipeEnv : PipeEnv := ⟨fun _ => none, none, false⟩

/-- Whether a stream slot needs a managed pipe (the negation of the
`*os.File`-or-nil test at lines 161, 172 and 187). -/
def needsPipe : StreamCfg → Bool
  | .generic => true
  | _ => false

/-- Bookkeeping accumulated by the body of one `Start` attempt. -/
structure Attempt where
  /-- Local pipe ends opened during this attempt, in order. -/
  openedLocal : List Nat
  /-- Remote pipe ends opened during this attempt, in order. -/
  openedRemote : List Nat
  /-- The local ends owned by the copy goroutines started via `startPipe`. -/
  copiers : List Nat
  /-- Fresh-id counter. -/
  nextId : Nat
  /-- Number of `os.Pipe()` calls made so far in this attempt. -/
  pipeCalls : Nat
deriving DecidableEq, Repr

/-- `os.Pipe()` under the oracle: either an error or two fresh endpoint
ids `(r, w)`. -/
def allocPipe (penv : PipeEnv) (a : Attempt) :
    Option Nat × Attempt × Nat × Nat :=
  match penv.pipeFail a.pipeCalls with
  | some e => (some e, a, 0, 0)
  | none =>
      (none,
       ⟨a.openedLocal, a.openedRemote, a.copiers, a.nextId + 2,
        a.pipeCalls + 1⟩,
       a.nextId, a.nextId + 1)

/-- `Cmd.newInputPipe` (lines 335-343): `r` is remote, `w` is local. -/
def newInputPipe (penv : PipeEnv) (a : Attempt) : Option Nat × Attempt :=
  match allocPipe penv a with
  | (some e, a, _, _) => (some e, a)
  | (none, a, r, w) =>
      (none,
       ⟨a.openedLocal ++ [w], a.openedRemote ++ [r], a.copiers, a.nextId,
        a.pipeCalls⟩)

/-- `Cmd.newOutputPipe` (lines 345-353): `r` is local, `w` is remote. -/
def newOutputPipe (penv : PipeEnv) (a : Attempt) : Option Nat × Attempt :=
  match allocPipe penv a with
  | (some e, a, _, _) => (some e, a)
  | (none, a, r, w) =>
      (none,
       ⟨a.openedLocal ++ [r], a.openedRemote ++ [w], a.copiers, a.nextId,
        a.pipeCalls⟩)

/-- The stdin wiring of `Start` (lines 161-170): a managed input pipe plus
a copy goroutine owning the local write end, when needed. -/
def setupStdin (cfg : StreamsCfg) (penv : PipeEnv) (a : Attempt) :
    Option Nat × Attempt :=
  if needsPipe cfg.stdin then
    match newInputPipe penv a with
    | (some e, a) => (some e, a)
    | (none, a) =>
        -- `startPipe(w, c.Stdin, w)`: the copier owns the last-opened
        -- local end.
        (none,
         ⟨a.openedLocal, a.openedRemote,
          a.copiers ++ [a.nextId - 1], a.nextId, a.pipeCalls⟩)
  else (none, a)

/-- The stdout wiring of `Start` (lines 172-184); when
`c.Stderr == c.Stdout` the same pipe also serves stderr (line 179). -/
def setupStdout (cfg : StreamsCfg) (penv : PipeEnv) (a : Attempt) :
    Option Nat × Attempt :=
  if needsPipe cfg.stdout then
    match newOutputPipe penv a with
    | (some e, a) => (some e, a)
    | (none, a) =>
        -- `startPipe(c.Stdout, r, r)`: the copier owns the local read end.
        (none,
         ⟨a.openedLocal, a.openedRemote,
          a.copiers ++ [a.nextId - 2], a.nextId, a.pipeCalls⟩)
  else (none, a)

/-- The stderr wiring of `Start` (lines 186-197), skipped entirely when
stderr aliases stdout. -/
def setupStderr (cfg : StreamsCfg) (penv : PipeEnv) (a : Attempt) :
    Option Nat × Attempt :=
  if !cfg.errAliasesOut && needsPipe cfg.stderr then
    match newOutputPipe penv a with
    | (some e, a) => (some e, a)
    | (none, a) =>
        (none,
         ⟨a.openedLocal, a.openedRemote,
          a.copiers ++ [a.nextId - 2], a.nextId, a.pipeCalls⟩)
  else (none, a)

/-- The body of `Start` between the deferred cleanup (line 121) and the
native spawn (line 199): wire the three streams, then spawn. -/
def startBody (c : CmdState) (cfg : StreamsCfg) (penv : PipeEnv) :
    Attempt × Option GoErr :=
  let a0 : Attempt := ⟨[], [], [], c.pipeCount, 0⟩
  match setupStdin cfg penv a0 with
  | (some e, a) => (a, some (.pipeErr e))
  | (none, a1) =>
    match setupStdout cfg penv a1 with
    | (some e, a) => (a, some (.pipeErr e))
    | (none, a2) =>
      match setupStderr cfg penv a2 with
      | (some e, a) => (a, some (.pipeErr e))
      | (none, a3) =>
        match penv.spawnFail with
        | some e => (a3, some (.spawnErr e))
        | none => (a3, none)

/-- Observable outcome of one `Start` call. -/
structure StartOutcome where
  /-- The returned error. -/
  err : Option GoErr
  /-- True when the native spawn ran and succeeded. -/
  spawned : Bool
  /-- Local pipe ends opened during this attempt. -/
  openedLocal : List Nat
  /-- Remote pipe ends opened during this attempt. -/
  openedRemote : List Nat
  /-- Local ends owned by copy goroutines started during this attempt. -/
  copiers : List Nat
  /-- Every endpoint closed before `Start` returned. -/
  closed : List Nat
  /-- True when `Start` blocked on `runningPipes.Wait()` for all copy
  goroutines to finish before returning (line 138). -/
  awaitedCopiers : Bool
deriving DecidableEq, Repr

/-- `Cmd.Start` (moreexec.go lines 106-205): the configuration checks, the
already-started check, the stream wiring, the spawn, and the deferred
cleanup (lines 121-140) that closes the remote ends always and, on
failure, also closes the local ends and drains the copiers. -/
def startModel (c : CmdState) (cfg : StreamsCfg) (penv : PipeEnv) :
    StartOutcome × CmdState :=
  if c.interrupt.isSome && !c.hasContext then
    (⟨some .interruptRequiresContext, false, [], [], [], [], false⟩, c)
  else if c.interrupt.isSome && penv.windows &&
      !(c.interrupt == some killSignal) then
    (⟨some .windowsSignal, false, [], [], [], [], false⟩, c)
  else if c.statec.isSome then
    (⟨some .alreadyStarted, false, [], [], [], [], false⟩, c)
  else
    let body := startBody c cfg penv
    let a := body.1
    let remotes := c.remotePipes ++ a.openedRemote
    let locals := c.localPipes ++ a.openedLocal
    match body.2 with
    | none =>
        (⟨none, true, a.openedLocal, a.openedRemote, a.copiers, remotes,
          false⟩,
         { c with statec := some ⟨[], false⟩, localPipes := locals,
                  remotePipes := [], pipeCount := a.nextId })
    | some e =>
        (⟨some e, false, a.openedLocal, a.openedRemote, a.copiers,
          remotes ++ locals, true⟩,
         { c with localPipes := [], remotePipes := [],
                  pipeCount := a.nextId })

/-- C4: once `Start` has succeeded, a second `Start` (on any platform of
the same kind and any stream/pipe circumstances) returns the
already-started error, attempts no spawn, and leaves the command state
untouched. -/
theorem c4_start_at_most_once (c : CmdState) (cfg cfg2 : StreamsCfg)
    (p1 p2 : PipeEnv)
    (hw : p2.windows = p1.windows)
    (h : (startModel c cfg p1).1.err = none) :
    (startModel (startModel c cfg p1).2 cfg2 p2).1.err =
        some .alreadyStarted ∧
    (startModel (startModel c cfg p1).2 cfg2 p2).1.spawned = false ∧
    (startModel (startModel c cfg p1).2 cfg2 p2).2 =
        (startModel c cfg p1).2 := by
  by_cases h1 : c.interrupt.isSome && !c.hasContext
  · simp [startModel, h1] at h
  by_cases h2 : c.interrupt.isSome && p1.windows &&
      !(c.interrupt == some killSignal)
  · simp [startModel, h1, h2] at h
  by_cases h3 : c.statec.isSome
  · simp [startModel, h1, h2, h3] at h
  rcases hb : (startBody c cfg p1).2 with _ | e
  · have hc2 : (startModel c cfg p1).2 =
        { c with statec := some ⟨[], false⟩,
                 localPipes := c.localPipes ++ (startBody c cfg p1).1.openedLocal,
                 remotePipes := [],
                 pipeCount := (startBody c cfg p1).1.nextId } := by
      simp [startModel, h1, h2, h3, hb]
    rw [hc2]
    have h1' : ¬ (c.interrupt.isSome && !c.hasContext) = true := h1
    have h2' : ¬ (c.interrupt.isSome && p2.windows &&
        !(c.interrupt == some killSignal)) = true := by
      rw [hw]; exact h2
    refine ⟨?_, ?_, ?_⟩ <;>
      simp [startModel, h1', h2']
  · simp [startModel, h1, h2, h3, hb] at h

/-- Witness for C4: a fresh command started successfully in a benign
environment; the second `Start` reports already-started. -/
theorem c4_start_at_most_once_witness :
    (startModel
      (startModel ⟨"p", ["p"], none, "", none, 0, false, none, none, none,
          [], [], 0⟩
        ⟨.absent, .absent, .absent, true⟩ benignPipeEnv).2
      ⟨.absent, .absent, .absent, true⟩ benignPipeEnv).1.err =
      some .alreadyStarted :=
  (c4_start_at_most_once
    ⟨"p", ["p"], none, "", none, 0, false, none, none, none, [], [], 0⟩
    ⟨.absent, .absent, .absent, true⟩ ⟨.absent, .absent, .absent, true⟩
    benignPipeEnv benignPipeEnv rfl rfl).1

/-- C6: when `Start` returns a non-nil error, every local pipe end opened
during that attempt has been closed, and if any copy goroutine was started
during the attempt, `Start` waited for all of them to finish before
returning. -/
theorem c6_failed_start_cleanup (c : CmdState) (cfg : StreamsCfg)
    (penv : PipeEnv) (e : GoErr)
    (h : (startModel c cfg penv).1.err = some e) :
    (∀ x ∈ (startModel c cfg penv).1.openedLocal,
        x ∈ (startModel c cfg penv).1.closed) ∧
    ((startModel c cfg penv).1.copiers = [] ∨
        (startModel c cfg penv).1.awaitedCopiers = true) := by
  by_cases h1 : c.interrupt.isSome && !c.hasContext
  · simp [startModel, h1]
  by_cases h2 : c.interrupt.isSome && penv.windows &&
      !(c.interrupt == some killSignal)
  · simp [startModel, h1, h2]
  by_cases h3 : c.statec.isSome
  · simp [startModel, h1, h2, h3]
  rcases hb : (startBody c cfg penv).2 with _ | e'
  · simp [startModel, h1, h2, h3, hb] at h
  · constructor
    · intro x hx
      simp [startModel, h1, h2, h3, hb] at hx ⊢
      tauto
    · right
      simp [startModel, h1, h2, h3, hb]

/-- Witness for C6: a concrete failing `Start` (stdin needs a pipe, the
spawn fails); the opened local end is closed and the copier drained. -/
theorem c6_failed_start_cleanup_witness :
    (∀ x ∈ (startModel
        ⟨"p", ["p"], none, "", none, 0, false, none, none, none, [], [], 0⟩
        ⟨.generic, .absent, .absent, false⟩
        ⟨fun _ => none, some 3, false⟩).1.openedLocal,
      x ∈ (startModel
        ⟨"p", ["p"], none, "", none, 0, false, none, none, none, [], [], 0⟩
        ⟨.generic, .absent, .absent, false⟩
        ⟨fun _ => none, some 3, false⟩).1.closed) ∧
    ((startModel
        ⟨"p", ["p"], none, "", none, 0, false, none, none, none, [], [], 0⟩
        ⟨.generic, .absent, .absent, false⟩
        ⟨fun _ => none, some 3, false⟩).1.copiers = [] ∨
      (startModel
        ⟨"p", ["p"], none, "", none, 0, false, none, none, none, [], [], 0⟩
        ⟨.generic, .absent, .absent, false⟩
        ⟨fun _ => none, some 3, false⟩).1.awaitedCopiers = true) :=
  c6_failed_start_cleanup
    ⟨"p", ["p"], none, "", none, 0, false, none, none, none, [], [], 0⟩
    ⟨.generic, .absent, .absent, false⟩
    ⟨fun _ => none, some 3, false⟩ (.spawnErr 3) rfl

/-- C9: when `Start` fails on a not-yet-started command, the completion
channel stays unassigned, a subsequent `Wait` returns the not-started error
without blocking, and a retry in a benign environment (with a valid
interrupt configuration) succeeds. -/
theorem c9_failed_start_stays_unstarted (c : CmdState) (cfg : StreamsCfg)
    (penv : PipeEnv) (e : GoErr)
    (h0 : c.statec = none)
    (h : (startModel c cfg penv).1.err = some e) :
    (startModel c cfg penv).2.statec = none ∧
    (waitMethod (startModel c cfg penv).2).1 =
        .returned (some .notStarted) ∧
    ((c.interrupt.isSome → c.hasContext = true) →
      (startModel (startModel c cfg penv).2 cfg benignPipeEnv).1.err =
        none) := by
  by_cases h1 : c.interrupt.isSome && !c.hasContext
  · have hs : (startModel c cfg penv).2 = c := by simp [startModel, h1]
    rw [hs]
    refine ⟨h0, by simp [waitMethod, h0], ?_⟩
    intro hvalid
    rcases hi : c.interrupt with _ | sig
    · simp [hi] at h1
    · have := hvalid (by simp [hi])
      simp [hi, this] at h1
  by_cases h2 : c.interrupt.isSome && penv.windows &&
      !(c.interrupt == some killSignal)
  · have hs : (startModel c cfg penv).2 = c := by simp [startModel, h1, h2]
    rw [hs]
    refine ⟨h0, by simp [waitMethod, h0], ?_⟩
    intro _
    have h1' : ¬ (c.interrupt.isSome && !c.hasContext) = true := h1
    have h2' : ¬ (c.interrupt.isSome && benignPipeEnv.windows &&
        !(c.interrupt == some killSignal)) = true := by
      simp [benignPipeEnv]
    simp [startModel, h1', h2', h0, benignPipeEnv, startBody, setupStdin,
      setupStdout, setupStderr, newInputPipe, newOutputPipe, allocPipe,
      needsPipe] at *
    rcases cfg with ⟨si, so, se, al⟩
    cases si <;> cases so <;> cases se <;> cases al <;>
      simp [startModel, h1', h0, benignPipeEnv, startBody, setupStdin,
        setupStdout, setupStderr, newInputPipe, newOutputPipe, allocPipe,
        needsPipe]
  by_cases h3 : c.statec.isSome
  · rw [h0] at h3; simp at h3
  rcases hb : (startBody c cfg penv).2 with _ | e'
  · simp [startModel, h1, h2, h3, hb] at h
  · have hs : (startModel c cfg penv).2 =
        { c with localPipes := [], remotePipes := [],
                 pipeCount := (startBody c cfg penv).1.nextId } := by
      simp [startModel, h1, h2, h3, hb]
    rw [hs]
    refine ⟨h0, ?_, ?_⟩
    · simp [waitMethod, h0]
    · intro _
      have h1' : ¬ (c.interrupt.isSome && !c.hasContext) = true := h1
      have h2' : ¬ (c.interrupt.isSome && benignPipeEnv.windows &&
          !(c.interrupt == some killSignal)) = true := by
        simp [benignPipeEnv]
      rcases cfg with ⟨si, so, se, al⟩
      cases si <;> cases so <;> cases se <;> cases al <;>
        simp [startModel, h1', h2', h0, benignPipeEnv, startBody,
          setupStdin, setupStdout, setupStderr, newInputPipe,
          newOutputPipe, allocPipe, needsPipe]

/-- Witness for C9: a concrete failed `Start` (spawn fails); the command
stays not-started, `Wait` says so, and the retry succeeds. -/
theorem c9_failed_start_stays_unstarted_witness :
    (startModel
      ⟨"p", ["p"], none, "", none, 0, false, none, none, none, [], [], 0⟩
      ⟨.generic, .absent, .absent, false⟩
      ⟨fun _ => none, some 3, false⟩).2.statec = none :=
  (c9_failed_start_stays_unstarted
    ⟨"p", ["p"], none, "", none, 0, false, none, none, none, [], [], 0⟩
    ⟨.generic, .absent, .absent, false⟩
    ⟨fun _ => none, some 3, false⟩ (.spawnErr 3) rfl rfl).1

/-! ## The child environment assembled by `Start`

Model of moreexec.go lines 144-153. -/

/-- The environment `Start` hands to the child: when `c.Dir` is set, the
caller's `c.Env` (or, when that is nil, the inherited `os.Environ()`) with
`"PWD=" ++ dir` appended; otherwise `c.Env` unchanged.  `none` means
inherit. -/
def startEnviron (osEnviron : List String) (envField : Option (List String))
    (dir : String) : Option (List String) :=
  if dir != "" then
    match envField with
    | none => some (osEnviron ++ ["PWD=" ++ dir])
    | some e => some (e ++ ["PWD=" ++ dir])
  else envField

/-- Whether an environment entry defines `PWD` (has the `PWD=` key). -/
def isPWDEntry (s : String) : Bool := s.toList.take 4 == "PWD=".toList

/-- The number of `PWD` entries in an environment. -/
def pwdCount (env : List String) : Nat := env.countP fun s => isPWDEntry s

/-- An appended `"PWD=" ++ dir` entry always defines `PWD`. -/
theorem isPWDEntry_pwd_append (dir : String) :
    isPWDEntry ("PWD=" ++ dir) = true := by
  have hdata : ("PWD=" ++ dir).toList =
      ['P', 'W', 'D', '='] ++ dir.toList := by
    simp [String.toList, String.data_append]
  simp [isPWDEntry, hdata, List.take_append_eq_append_take]

/-- C5 (counterexample): with a working directory set and a caller
environment that already defines `PWD`, `Start` still injects an
additional `PWD` entry — the child environment carries two `PWD` entries
where the caller supplied one. -/
theorem c5_pwd_injection_counterexample :
    pwdCount ((startEnviron [] (some ["PWD=/x"]) "/tmp").getD []) = 2 ∧
    pwdCount ["PWD=/x"] = 1 := by
  constructor <;> rfl

/-- C5 (amended): whenever a working directory is set, `Start`
unconditionally appends a `"PWD=" ++ dir` entry — to the inherited
environment when no explicit override is given, and to the caller's
environment otherwise, even when that environment already defines `PWD`.
The appended entry is last, so it takes precedence under last-wins
environment semantics, and the number of `PWD` entries always grows by
exactly one. -/
theorem c5_pwd_always_appended (osEnviron : List String)
    (envField : Option (List String)) (dir : String)
    (h : dir ≠ "") :
    startEnviron osEnviron envField dir =
      some ((envField.getD osEnviron) ++ ["PWD=" ++ dir]) ∧
    pwdCount ((envField.getD osEnviron) ++ ["PWD=" ++ dir]) =
      pwdCount (envField.getD osEnviron) + 1 := by
  constructor
  · rcases envField with _ | e <;>
      simp [startEnviron, h, Option.getD]
  · simp [pwdCount, List.countP_append, List.countP_cons,
      isPWDEntry_pwd_append]

/-- Witness for C5 (amended) at a concrete directory and environment. -/
theorem c5_pwd_always_appended_witness :
    startEnviron [] (some ["PWD=/x"]) "/tmp" =
      some (["PWD=/x"] ++ ["PWD=" ++ "/tmp"]) :=
  (c5_pwd_always_appended [] (some ["PWD=/x"]) "/tmp" (by decide)).1

/-! ## `Command` and the path lookup

Model of `Command` (moreexec.go lines 82-93) and of the Unix
`filepath.Base` it gates the `exec.LookPath` call on. -/

/-- Unix `filepath.Base`: `"."` for the empty path, else the path with
trailing separators removed and everything up to the last separator
dropped, with `"/"` for an all-separator path. -/
def filepathBase (path : String) : String :=
  if path == "" then "."
  else
    let trimmed := (path.toList.reverse.dropWhile fun c => c == '/').reverse
    let last := (trimmed.reverse.takeWhile fun c => c != '/').reverse
    if last.isEmpty then "/" else String.mk last

/-- Whether `Command` attempts the `exec.LookPath` call: exactly when
`filepath.Base(name) == name` (line 87). -/
def lookupAttempted (name : String) : Bool := filepathBase name == name

/-- The lookup oracle: `exec.LookPath` results for this run. -/
structure LookupEnv where
  lookPath : String → Option String

/-- `Command(name, args...)` (lines 82-93): the resulting `Path` and
`Args`.  `Path` is the resolved path when the gated lookup succeeds and
the literal name otherwise; `Args` is always `name` followed by `args`. -/
def commandModel (lenv : LookupEnv) (name : String) (args : List String) :
    String × List String :=
  let path :=
    if filepathBase name == name then
      match lenv.lookPath name with
      | some p => p
      | none => name
    else name
  (path, name :: args)

/-- `dropWhile` keeps a list on which the predicate never holds. -/
theorem dropWhile_eq_self_of_all {α : Type} (p : α → Bool) (l : List α)
    (h : ∀ a ∈ l, p a = false) : l.dropWhile p = l := by
  cases l with
  | nil => rfl
  | cons a l =>
      rw [List.dropWhile_cons, if_neg]
      simp [h a (by simp)]

/-- `takeWhile` keeps a list on which the predicate always holds. -/
theorem takeWhile_eq_self_of_all {α : Type} (p : α → Bool) (l : List α)
    (h : ∀ a ∈ l, p a = true) : l.takeWhile p = l := by
  induction l with
  | nil => rfl
  | cons a l ih =>
      rw [List.takeWhile_cons, if_pos (h a (by simp))]
      rw [ih fun x hx => h x (by simp [hx])]

/-- Members of a `takeWhile` satisfy the predicate. -/
theorem pred_of_mem_takeWhile {α : Type} {p : α → Bool} {l : List α}
    {a : α} (h : a ∈ l.takeWhile p) : p a = true := by
  induction l with
  | nil => simp [List.takeWhile] at h
  | cons b l ih =>
      by_cases hb : p b
      · rw [List.takeWhile_cons, if_pos hb] at h
        rcases List.mem_cons.mp h with rfl | h'
        · exact hb
        · exact ih h'
      · rw [List.takeWhile_cons, if_neg hb] at h
        simp at h

/-- Characterization of the lookup gate: `filepath.Base(name) == name`
holds exactly for nonempty separator-free names and for the root path. -/
theorem lookupAttempted_iff (name : String) :
    lookupAttempted name = true ↔
      ((name ≠ "" ∧ '/' ∉ name.toList) ∨ name = "/") := by
  constructor
  · intro h
    rw [lookupAttempted, beq_iff_eq] at h
    by_cases hname : name = ""
    · subst hname
      simp [filepathBase] at h
    by_cases hmem : '/' ∈ name.toList
    · right
      have hne : (name == "") = false := beq_eq_false_iff_ne.mpr hname
      rw [filepathBase, hne] at h
      simp only [Bool.false_eq_true, if_false] at h
      set trimmed :=
        (name.toList.reverse.dropWhile fun c => c == '/').reverse with ht
      set last :=
        (trimmed.reverse.takeWhile fun c => c != '/').reverse with hl
      by_cases hempty : last.isEmpty
      · rw [if_pos hempty] at h
        exact h.symm
      · rw [if_neg hempty] at h
        exfalso
        have hdata : name.toList = last := by
          rw [← h]
          rfl
        rw [hdata, hl] at hmem
        have hpred := pred_of_mem_takeWhile (List.mem_reverse.mp hmem)
        simp at hpred
    · exact Or.inl ⟨hname, hmem⟩
  · intro h
    rcases h with ⟨hne, hmem⟩ | hroot
    · have hlist : name.toList ≠ [] := by
        intro hd
        apply hne
        cases name with
        | mk data =>
            have hd' : data = [] := hd
            subst hd'
            decide
      have hne' : (name == "") = false := beq_eq_false_iff_ne.mpr hne
      rw [lookupAttempted, filepathBase, hne']
      simp only [Bool.false_eq_true, if_false]
      have hdrop :
          (name.toList.reverse.dropWhile fun c => c == '/') =
            name.toList.reverse := by
        apply dropWhile_eq_self_of_all
        intro a ha
        have : a ∈ name.toList := List.mem_reverse.mp ha
        have ha' : a ≠ '/' := fun hh => hmem (hh ▸ this)
        simp [ha']
      have htake :
          ((name.toList.reverse.dropWhile fun c => c == '/').reverse.reverse.takeWhile
              fun c => c != '/') =
            (name.toList.reverse.dropWhile fun c => c == '/').reverse.reverse := by
        apply takeWhile_eq_self_of_all
        intro a ha
        rw [List.reverse_reverse, hdrop] at ha
        have : a ∈ name.toList := List.mem_reverse.mp ha
        have hh : a ≠ '/' := fun hh => hmem (hh ▸ this)
        simp [hh]
      rw [htake, List.reverse_reverse, hdrop, List.reverse_reverse]
      have hempty : name.toList.isEmpty = false := by
        cases hnl : name.toList with
        | nil => exact absurd hnl hlist
        | cons a l => rfl
      rw [hempty]
      simp only [Bool.false_eq_true, if_false]
      cases name with
      | mk data => simp [String.toList]
    · subst hroot
      decide

/-- C8 (counterexample): the empty name contains no directory separator,
yet `Command` attempts no lookup for it (`filepath.Base("") == "."`), so
the claimed "exactly when name contains no directory separator" fails. -/
theorem c8_lookup_condition_counterexample :
    lookupAttempted "" = false ∧ '/' ∉ ("" : String).toList := by
  constructor
  · decide
  · simp [String.toList]

/-- C8 (amended): `Command(name, args...)` attempts the path lookup
exactly when `filepath.Base(name) == name`, that is, exactly when `name`
is nonempty and contains no directory separator, or is the root path
`"/"`; on lookup success the resolved path is substituted and otherwise
the literal name is kept, and `Args` is always `name` followed by `args`
regardless of the resolution outcome. -/
theorem c8_lookup_condition_amended (lenv : LookupEnv) (name : String)
    (args : List String) :
    (lookupAttempted name = true ↔
      ((name ≠ "" ∧ '/' ∉ name.toList) ∨ name = "/")) ∧
    (commandModel lenv name args).1 =
      (if lookupAttempted name then (lenv.lookPath name).getD name
       else name) ∧
    (commandModel lenv name args).2 = name :: args := by
  refine ⟨lookupAttempted_iff name, ?_, rfl⟩
  rw [commandModel, lookupAttempted]
  by_cases h : (filepathBase name == name) = true
  · rw [if_pos h, if_pos h]
    rcases lenv.lookPath name with _ | p <;> rfl
  · rw [if_neg h, if_neg h]

/-! ## `moreio.LimitedWriter`

Model of `moreio/limited_writer.go` (the revision using
`utf8`/`io.ByteWriter` capability probing).  The underlying writer `lw.W`
is abstract: its capabilities are a `WriterCaps` and the byte counts and
errors it reports are oracle data carried on each operation.  `lw.N` is
the `int64` remaining-byte budget; errors are tracked only as
nil/non-nil. -/

/-- The `LimitedWriter` state: the remaining budget `N` and whether the
configurable `Err` field is nil (in which case `err()` falls back to
`io.ErrShortWrite`; either way `err()` is non-nil). -/
structure LimitedWriter where
  N : Int
  errIsNil : Bool
deriving DecidableEq, Repr

/-- Which optional fast-path interfaces the underlying writer satisfies. -/
structure WriterCaps where
  isByteWriter : Bool
  isRuneWriter : Bool
deriving DecidableEq, Repr

/-- `LimitedWriter.Write` (limited_writer.go lines 43-60): `plen` is
`len(p)`; the underlying writer reports `resp` bytes written and `respErr`
tells whether it returned an error.  Result: bytes reported to the caller,
whether a non-nil error was returned, and the new state. -/
def lwWrite (lw : LimitedWriter) (plen resp : Nat) (respErr : Bool) :
    Nat × Bool × LimitedWriter :=
  if lw.N ≤ 0 then
    (0, true, lw)
  else if (plen : Int) > lw.N then
    -- p is truncated to lw.N bytes; the deferred hook replaces a nil
    -- error with lw.err(), so the returned error is always non-nil here.
    (resp, true, ⟨lw.N - resp, lw.errIsNil⟩)
  else
    (resp, respErr, ⟨lw.N - resp, lw.errIsNil⟩)

/-- `LimitedWriter.WriteString` (lines 62-79): identical control flow to
`Write` with `slen = len(s)`. -/
def lwWriteString (lw : LimitedWriter) (slen resp : Nat) (respErr : Bool) :
    Nat × Bool × LimitedWriter :=
  if lw.N ≤ 0 then
    (0, true, lw)
  else if (slen : Int) > lw.N then
    (resp, true, ⟨lw.N - resp, lw.errIsNil⟩)
  else
    (resp, respErr, ⟨lw.N - resp, lw.errIsNil⟩)

/-- `LimitedWriter.WriteByte` (lines 81-100).  When the underlying writer
is an `io.ByteWriter` the byte is forwarded directly (an underlying error
meaning the byte was not written); otherwise the call falls back to
`lw.Write` on a one-byte slice. -/
def lwWriteByte (lw : LimitedWriter) (isByteWriter : Bool)
    (resp : Nat) (respErr : Bool) : Nat × Bool × LimitedWriter :=
  if !isByteWriter then
    match lwWrite lw 1 resp respErr with
    | (n, err, lw') =>
        if n < 1 && !err then (n, true, lw') else (n, err, lw')
  else if lw.N ≤ 0 then
    (0, true, lw)
  else if respErr then
    (0, true, lw)
  else
    (1, false, ⟨lw.N - 1, lw.errIsNil⟩)

/-- `LimitedWriter.WriteRune` (lines 102-128): `size` is the UTF-8
encoding size of the rune (between 1 and `utf8.UTFMax = 4`).  With a
rune-writing underlying writer and `N >= 4` the rune is forwarded
directly; otherwise it is encoded and, if it fits the budget, written as
bytes. -/
def lwWriteRune (lw : LimitedWriter) (isRuneWriter : Bool)
    (size resp : Nat) (respErr : Bool) : Nat × Bool × LimitedWriter :=
  if isRuneWriter && lw.N ≥ 4 then
    (resp, respErr, ⟨lw.N - resp, lw.errIsNil⟩)
  else if lw.N < (size : Int) then
    (0, true, lw)
  else if resp < size && !respErr then
    (resp, true, ⟨lw.N - resp, lw.errIsNil⟩)
  else
    (resp, respErr, ⟨lw.N - resp, lw.errIsNil⟩)

/-- One call to a `LimitedWriter` method, carrying the oracle data for the
underlying writer's response. -/
inductive LWOp where
  | write (plen resp : Nat) (respErr : Bool)
  | writeString (slen resp : Nat) (respErr : Bool)
  | writeByte (resp : Nat) (respErr : Bool)
  | writeRune (size resp : Nat) (respErr : Bool)
deriving DecidableEq, Repr

/-- Dispatch one call. -/
def lwStep (caps : WriterCaps) (lw : LimitedWriter) :
    LWOp → Nat × Bool × LimitedWriter
  | .write plen resp respErr => lwWrite lw plen resp respErr
  | .writeString slen resp respErr => lwWriteString lw slen resp respErr
  | .writeByte resp respErr => lwWriteByte lw caps.isByteWriter resp respErr
  | .writeRune size resp respErr =>
      lwWriteRune lw caps.isRuneWriter size resp respErr

/-- The number of bytes actually handed to the underlying `Write` call:
the slice is truncated to the budget when it is longer. -/
def handedLen (n : Int) (plen : Nat) : Nat :=
  if (plen : Int) > n then n.toNat else plen

/-- The assumption of claim C10 on one call: the underlying writer never
reports writing more bytes than it was handed (for `WriteRune`, more than
the rune's encoding size; an erroring `WriteByte` wrote nothing, which the
model already builds in). -/
def lwOpValid (caps : WriterCaps) (lw : LimitedWriter) : LWOp → Bool
  | .write plen resp _ =>
      decide (lw.N ≤ 0) || decide (resp ≤ handedLen lw.N plen)
  | .writeString slen resp _ =>
      decide (lw.N ≤ 0) || decide (resp ≤ handedLen lw.N slen)
  | .writeByte resp _ =>
      caps.isByteWriter ||
        decide (lw.N ≤ 0) || decide (resp ≤ handedLen lw.N 1)
  | .writeRune size resp _ =>
      decide (1 ≤ size) && decide (size ≤ 4) && decide (resp ≤ size)

/-- Run a sequence of calls, collecting the total number of bytes the
underlying writer reported (the bytes forwarded to it). -/
def lwRun (caps : WriterCaps) (lw : LimitedWriter) :
    List LWOp → Nat × LimitedWriter
  | [] => (0, lw)
  | op :: rest =>
      match lwStep caps lw op with
      | (n, _, lw') =>
          match lwRun caps lw' rest with
          | (m, lwf) => (n + m, lwf)

/-- Validity of a whole call sequence. -/
def lwTraceValid (caps : WriterCaps) (lw : LimitedWriter) :
    List LWOp → Bool
  | [] => true
  | op :: rest =>
      lwOpValid caps lw op &&
        lwTraceValid caps (lwStep caps lw op).2.2 rest

/-- Per-call accounting: under the validity assumption, a call on a
non-negative budget keeps the budget non-negative and decrements it by
exactly the bytes forwarded. -/
theorem lwStep_account (caps : WriterCaps) (lw : LimitedWriter)
    (op : LWOp) (h0 : 0 ≤ lw.N) (hv : lwOpValid caps lw op = true) :
    0 ≤ (lwStep caps lw op).2.2.N ∧
    ((lwStep caps lw op).1 : Int) + (lwStep caps lw op).2.2.N = lw.N := by
  obtain ⟨N, eIsNil⟩ := lw
  simp only at h0
  cases op with
  | write plen resp respErr =>
      simp only [lwOpValid, Bool.or_eq_true, decide_eq_true_eq,
        handedLen] at hv
      simp only [lwStep, lwWrite]
      by_cases hN : N ≤ 0
      · simp only [if_pos hN]
        omega
      · simp only [if_neg hN]
        rcases hv with hv | hv
        · omega
        · by_cases hp : (plen : Int) > N
          · rw [if_pos hp] at hv ⊢
            dsimp only
            omega
          · rw [if_neg hp] at hv ⊢
            dsimp only
            omega
  | writeString slen resp respErr =>
      simp only [lwOpValid, Bool.or_eq_true, decide_eq_true_eq,
        handedLen] at hv
      simp only [lwStep, lwWriteString]
      by_cases hN : N ≤ 0
      · simp only [if_pos hN]
        omega
      · simp only [if_neg hN]
        rcases hv with hv | hv
        · omega
        · by_cases hp : (slen : Int) > N
          · rw [if_pos hp] at hv ⊢
            dsimp only
            omega
          · rw [if_neg hp] at hv ⊢
            dsimp only
            omega
  | writeByte resp respErr =>
      simp only [lwOpValid, Bool.or_eq_true, decide_eq_true_eq,
        handedLen] at hv
      simp only [lwStep, lwWriteByte, lwWrite, handedLen]
      cases hbw : caps.isByteWriter with
      | true =>
          simp only [Bool.not_true, Bool.false_eq_true, if_false]
          by_cases hN : N ≤ 0
          · rw [if_pos hN]
            simp <;> omega
          · rw [if_neg hN]
            by_cases hre : respErr = true
            · rw [if_pos hre]
              simp <;> omega
            · rw [if_neg hre]
              simp <;> omega
      | false =>
          rw [hbw] at hv
          simp only [Bool.false_eq_true, false_or] at hv
          simp only [Bool.not_false, if_true]
          by_cases hN : N ≤ 0
          · rw [if_pos hN]
            simp <;> omega
          · rw [if_neg hN]
            by_cases hp : ((1 : Nat) : Int) > N
            · rw [if_pos hp] at hv ⊢
              simp <;> omega
            · rw [if_neg hp] at hv ⊢
              by_cases hr : (resp < 1 && !respErr) = true
              · rw [if_pos hr]
                simp at hr ⊢ <;> omega
              · rw [if_neg hr]
                simp <;> omega
  | writeRune size resp respErr =>
      simp only [lwOpValid, Bool.and_eq_true, decide_eq_true_eq] at hv
      obtain ⟨⟨h1, h4⟩, hr⟩ := hv
      simp only [lwStep, lwWriteRune]
      by_cases hfast : caps.isRuneWriter && N ≥ 4
      · rw [if_pos hfast]
        simp only [Bool.and_eq_true, decide_eq_true_eq] at hfast
        dsimp only
        omega
      · rw [if_neg hfast]
        by_cases hsz : N < (size : Int)
        · rw [if_pos hsz]
          dsimp only
          omega
        · rw [if_neg hsz]
          by_cases hshort : (resp < size && !respErr) = true
          · rw [if_pos hshort]
            dsimp only
            omega
          · rw [if_neg hshort]
            dsimp only
            omega

/-- Running a valid trace from a non-negative budget keeps the budget
non-negative and decrements it by exactly the total bytes forwarded. -/
theorem lwRun_account (caps : WriterCaps) (ops : List LWOp) :
    ∀ lw : LimitedWriter, 0 ≤ lw.N →
      lwTraceValid caps lw ops = true →
      0 ≤ (lwRun caps lw ops).2.N ∧
      ((lwRun caps lw ops).1 : Int) + (lwRun caps lw ops).2.N = lw.N := by
  induction ops with
  | nil => intro lw h0 _; exact ⟨h0, by simp [lwRun]⟩
  | cons op rest ih =>
      intro lw h0 hv
      simp only [lwTraceValid, Bool.and_eq_true] at hv
      have hstep := lwStep_account caps lw op h0 hv.1
      have hrest := ih (lwStep caps lw op).2.2 hstep.1 hv.2
      simp only [lwRun]
      rcases hs : lwStep caps lw op with ⟨n, e, lw'⟩
      rcases hr : lwRun caps lw' rest with ⟨m, lwf⟩
      rw [hs] at hstep
      rw [hs] at hrest
      rw [hr] at hrest
      simp only at hstep hrest ⊢
      constructor
      · exact hrest.1
      · push_cast
        omega

/-- A prefix of a valid trace is valid. -/
theorem lwTraceValid_take (caps : WriterCaps) (ops : List LWOp) (k : Nat) :
    ∀ lw : LimitedWriter, lwTraceValid caps lw ops = true →
      lwTraceValid caps lw (ops.take k) = true := by
  induction ops generalizing k with
  | nil => intro lw _; simp [List.take_nil, lwTraceValid]
  | cons op rest ih =>
      intro lw hv
      cases k with
      | zero => rfl
      | succ k =>
          simp only [lwTraceValid, Bool.and_eq_true] at hv
          simp only [List.take_succ_cons, lwTraceValid,
            Bool.and_eq_true]
          exact ⟨hv.1, ih k _ hv.2⟩

/-- C10: from a non-negative budget, the budget stays non-negative after
every prefix of any sequence of `Write`, `WriteString`, `WriteByte` and
`WriteRune` calls, and the total number of bytes forwarded to the
underlying writer never exceeds the initial budget — assuming the
underlying writer never reports writing more bytes than it was given. -/
theorem c10_limited_writer_bounds (caps : WriterCaps)
    (lw : LimitedWriter) (ops : List LWOp) (k : Nat)
    (h0 : 0 ≤ lw.N) (hv : lwTraceValid caps lw ops = true) :
    0 ≤ (lwRun caps lw (ops.take k)).2.N ∧
    ((lwRun caps lw ops).1 : Int) ≤ lw.N := by
  constructor
  · exact (lwRun_account caps (ops.take k) lw h0
      (lwTraceValid_take caps ops k lw hv)).1
  · have h := lwRun_account caps ops lw h0 hv
    omega

/-- Witness for C10: a concrete valid trace over a budget of 3 — an
oversized `Write` truncated to the budget, then a rejected `WriteByte` and
a rejected `WriteRune`; the budget ends at 0 and exactly 3 bytes were
forwarded. -/
theorem c10_limited_writer_bounds_witness :
    0 ≤ (lwRun ⟨true, true⟩ ⟨3, true⟩
        [.write 5 3 false, .writeByte 0 false,
         .writeRune 2 0 false]).2.N ∧
    ((lwRun ⟨true, true⟩ ⟨3, true⟩
        [.write 5 3 false, .writeByte 0 false,
         .writeRune 2 0 false]).1 : Int) ≤ (3 : Int) :=
  c10_limited_writer_bounds ⟨true, true⟩ ⟨3, true⟩
    [.write 5 3 false, .writeByte 0 false, .writeRune 2 0 false] 3
    (by decide) (by decide)

end MoreSpec
